import Mathlib

/-!
Verification of `src/main.py`: a script with four utilities — an in-memory
key-value store (`DataStorage`), a word-frequency counter
(`find_top_k_frequent_words`), a polygon-collision test
(`check_polygon_collision`), and a recursive directory copier
(`FileProcessor.copy_directory`).

Coordinates are embedded as rationals (`ℚ`): the spec's data model takes
points to be pairs of real numbers, and all inputs of interest have exact
small coordinates, so exact field arithmetic is the faithful reading of the
Python float expressions.
-/

attribute [local semireducible] Rat.add Rat.mul Rat.sub Rat.inv

namespace Main

/-- A 2D point, as in the Python `(x, y)` tuples. -/
abbrev Point : Type := ℚ × ℚ

/-- The cross product `(B - A) × (C - A)`; `ccw` below is its sign test. -/
def cross (A B C : Point) : ℚ :=
  (B.1 - A.1) * (C.2 - A.2) - (B.2 - A.2) * (C.1 - A.1)

/-- Python `ccw(A, B, C)`:
`(C[1] - A[1]) * (B[0] - A[0]) > (B[1] - A[1]) * (C[0] - A[0])`. -/
def ccw (A B C : Point) : Bool :=
  decide ((C.2 - A.2) * (B.1 - A.1) > (B.2 - A.2) * (C.1 - A.1))

/-- Python `line_segments_intersect(seg1, seg2)`:
`ccw(A,C,D) != ccw(B,C,D) and ccw(A,B,C) != ccw(A,B,D)` with
`A, B = seg1` and `C, D = seg2`. -/
def line_segments_intersect (seg1 seg2 : Point × Point) : Bool :=
  ccw seg1.1 seg2.1 seg2.2 != ccw seg1.2 seg2.1 seg2.2 &&
    (ccw seg1.1 seg1.2 seg2.1 != ccw seg1.1 seg1.2 seg2.2)

/-- The y-straddle guard of the ray-casting loop:
`(polygon[i][1] > y) != (polygon[j][1] > y)`. -/
def straddle (y yi yj : ℚ) : Bool :=
  decide (yi > y) != decide (yj > y)

/-- Python `point_in_polygon(point, polygon)`: the even-odd ray-casting
loop. The state is the pair `(inside, j)`; `j` starts at `len - 1` and is
set to `i` after each iteration. Out-of-range indexing cannot occur (the
loop runs over `range(len(polygon))`), so `getD` with a dummy default is
exact. -/
def point_in_polygon (point : Point) (polygon : List Point) : Bool :=
  let x := point.1
  let y := point.2
  ((List.range polygon.length).foldl
    (fun (st : Bool × Nat) i =>
      let pi := polygon.getD i (0, 0)
      let pj := polygon.getD st.2 (0, 0)
      let inside :=
        if straddle y pi.2 pj.2 &&
            decide (x < (pj.1 - pi.1) * (y - pi.2) / (pj.2 - pi.2) + pi.1)
        then !st.1 else st.1
      (inside, i))
    (false, polygon.length - 1)).1

/-- Python `get_edges(polygon)`:
`[(polygon[i], polygon[(i + 1) % len(polygon)]) for i in range(len(polygon))]`. -/
def get_edges (polygon : List Point) : List (Point × Point) :=
  (List.range polygon.length).map
    (fun i => (polygon.getD i (0, 0),
               polygon.getD ((i + 1) % polygon.length) (0, 0)))

/-- Python `check_polygon_collision(polygon1, polygon2)`: the two vertex
containment loops with early `return True`, then the all-pairs edge
intersection `any`. Early return from a `for` loop is `List.any`, and the
sequencing of the three checks is short-circuit `||`. -/
def check_polygon_collision (polygon1 polygon2 : List Point) : Bool :=
  polygon1.any (fun point => point_in_polygon point polygon2) ||
    polygon2.any (fun point => point_in_polygon point polygon1) ||
      (get_edges polygon1).any (fun edge1 =>
        (get_edges polygon2).any (fun edge2 =>
          line_segments_intersect edge1 edge2))

/-- The top-level procedure exactly as the spec words it: step 1, any vertex
of A inside B → true; step 2, else any vertex of B inside A → true; step 3,
else test every edge pair, any intersection → true; step 4, otherwise
false. -/
def check_polygon_collision_spec (polygonA polygonB : List Point) : Bool :=
  if polygonA.any (fun v => point_in_polygon v polygonB) then true
  else if polygonB.any (fun v => point_in_polygon v polygonA) then true
  else if (get_edges polygonA).any (fun eA =>
            (get_edges polygonB).any (fun eB =>
              line_segments_intersect eA eB)) then true
  else false

/-- The sign test `ccw` is a predicate on the cross product. -/
lemma ccw_eq_cross_pos (A B C : Point) : ccw A B C = decide (0 < cross A B C) := by
  simp only [ccw, cross, decide_eq_decide]
  constructor <;> intro h <;> nlinarith [h]

/-- The cross product is invariant under cyclic rotation of its arguments. -/
lemma cross_rotate (A B C : Point) : cross A B C = cross C A B := by
  simp only [cross]
  ring

/-- The orientation test is invariant under cyclic rotation of its
arguments. -/
lemma ccw_rotate (A B C : Point) : ccw A B C = ccw C A B := by
  rw [ccw_eq_cross_pos, ccw_eq_cross_pos, cross_rotate]

/-- The ccw segment test does not depend on the order of the two
segments. -/
lemma line_segments_intersect_comm (s1 s2 : Point × Point) :
    line_segments_intersect s1 s2 = line_segments_intersect s2 s1 := by
  obtain ⟨A, B⟩ := s1
  obtain ⟨C, D⟩ := s2
  simp only [line_segments_intersect]
  rw [(ccw_rotate C A B).trans (ccw_rotate B C A),
      (ccw_rotate D A B).trans (ccw_rotate B D A),
      ccw_rotate C D A, ccw_rotate C D B, Bool.and_comm]

/-- The all-pairs edge intersection check does not depend on which polygon
comes first. -/
lemma edges_any_comm (A B : List Point) :
    ((get_edges A).any fun e1 => (get_edges B).any fun e2 =>
        line_segments_intersect e1 e2)
      = ((get_edges B).any fun e1 => (get_edges A).any fun e2 =>
          line_segments_intersect e1 e2) := by
  rw [Bool.eq_iff_iff]
  simp only [List.any_eq_true]
  constructor
  · rintro ⟨e1, h1, e2, h2, h⟩
    exact ⟨e2, h2, e1, h1, by rw [line_segments_intersect_comm]; exact h⟩
  · rintro ⟨e1, h1, e2, h2, h⟩
    exact ⟨e2, h2, e1, h1, by rw [line_segments_intersect_comm]; exact h⟩

/-- C1: `check_polygon_collision` returns true iff some vertex of A lies
ray-casting-inside B, else some vertex of B lies inside A, else some edge
pair passes the ccw intersection test, performing the checks in exactly
that order, and returns false otherwise: it coincides with the spec's
four-step procedure `check_polygon_collision_spec`. -/
theorem check_polygon_collision_eq_spec_procedure (A B : List Point) :
    check_polygon_collision A B = check_polygon_collision_spec A B := by
  unfold check_polygon_collision check_polygon_collision_spec
  cases A.any fun point => point_in_polygon point B
  case' true => rfl
  cases B.any fun point => point_in_polygon point A
  case' true => rfl
  cases (get_edges A).any fun e1 => (get_edges B).any fun e2 =>
    line_segments_intersect e1 e2
  all_goals rfl

/-- C2 counterexample: the unit squares `[(0,0),(1,0),(1,1),(0,1)]` and
`[(1,1),(2,1),(2,2),(1,2)]` are disjoint — their closed regions share only
the single corner point `(1,1)` (see `touching_squares_meet_only_at_corner`)
— yet `check_polygon_collision` reports them as colliding, because the
ray-casting test counts the shared corner `(1,1)` as inside the second
square. This refutes the claim that merely touching at a single point
yields `false`. -/
theorem touching_squares_reported_colliding :
    check_polygon_collision [(0,0),(1,0),(1,1),(0,1)] [(1,1),(2,1),(2,2),(1,2)] = true ∧
    point_in_polygon (1,1) [(1,1),(2,1),(2,2),(1,2)] = true := by
  decide

/-- The closed regions of the two touching unit squares of
`touching_squares_reported_colliding` really do meet only at the corner
`(1,1)`: the pair is disjoint up to that single boundary point. -/
lemma touching_squares_meet_only_at_corner (p : Point)
    (h1 : 0 ≤ p.1 ∧ p.1 ≤ 1 ∧ 0 ≤ p.2 ∧ p.2 ≤ 1)
    (h2 : 1 ≤ p.1 ∧ p.1 ≤ 2 ∧ 1 ≤ p.2 ∧ p.2 ≤ 2) : p = (1, 1) := by
  obtain ⟨hx0, hx1, hy0, hy1⟩ := h1
  obtain ⟨hx1', hx2, hy1', hy2⟩ := h2
  have hx : p.1 = 1 := le_antisymm hx1 hx1'
  have hy : p.2 = 1 := le_antisymm hy1 hy1'
  exact Prod.ext hx hy

/-- C2 amended: the original guarantee fails for boundary-touching pairs —
the disjoint unit squares sharing only the corner `(1,1)` are reported as
colliding (`true`). At the spec's representative pairs the rest of the
behavior is as stated: the strictly separated pair
`[(0,0),(1,0),(1,1),(0,1)]` and `[(3,0),(4,0),(4,1),(3,1)]` is reported
`false`, the overlapping pair `[(0,0),(4,0),(4,4),(0,4)]` and
`[(2,2),(6,2),(6,6),(2,6)]` is reported `true`, and the contained pair
`[(1,1),(2,1),(2,2),(1,2)]` inside `[(0,0),(5,0),(5,5),(0,5)]` is
reported `true`. -/
theorem collision_disjoint_amended :
    check_polygon_collision [(0,0),(1,0),(1,1),(0,1)] [(1,1),(2,1),(2,2),(1,2)] = true ∧
    check_polygon_collision [(0,0),(1,0),(1,1),(0,1)] [(3,0),(4,0),(4,1),(3,1)] = false ∧
    check_polygon_collision [(0,0),(4,0),(4,4),(0,4)] [(2,2),(6,2),(6,6),(2,6)] = true ∧
    check_polygon_collision [(1,1),(2,1),(2,2),(1,2)] [(0,0),(5,0),(5,5),(0,5)] = true := by
  decide

/-- C3: the collider is symmetric: swapping the two polygon arguments does
not change the result. -/
theorem check_polygon_collision_comm (A B : List Point) :
    check_polygon_collision A B = check_polygon_collision B A := by
  unfold check_polygon_collision
  rw [edges_any_comm]
  cases A.any fun point => point_in_polygon point B <;>
    cases B.any fun point => point_in_polygon point A <;> rfl

/-- C4: the spec's concrete testable examples: the small square inside the
big one collides (and indeed the vertex-containment step alone fires while
no edge pair intersects), the two far-apart unit squares do not collide,
and the two overlapping squares collide. -/
theorem collision_spec_examples :
    check_polygon_collision [(1,1),(2,1),(2,2),(1,2)] [(0,0),(5,0),(5,5),(0,5)] = true ∧
    ([(1,1),(2,1),(2,2),(1,2)] : List Point).any
      (fun v => point_in_polygon v [(0,0),(5,0),(5,5),(0,5)]) = true ∧
    ((get_edges [(1,1),(2,1),(2,2),(1,2)]).any fun e1 =>
      (get_edges [(0,0),(5,0),(5,5),(0,5)]).any fun e2 =>
        line_segments_intersect e1 e2) = false ∧
    check_polygon_collision [(0,0),(1,0),(1,1),(0,1)] [(10,10),(11,10),(11,11),(10,11)] = false ∧
    check_polygon_collision [(0,0),(4,0),(4,4),(0,4)] [(2,2),(6,2),(6,6),(2,6)] = true := by
  decide

/-- C5: the collider is total — on every input, malformed polygons
included, it returns one of the two booleans (the embedding is a total
function, mirroring that the Python never raises) — and the division of the
ray-casting interpolation is unreachable when an edge's two vertices have
equal y-coordinates: whenever the y-straddle guard holds, the denominator
`yj - yi` is nonzero. -/
theorem collision_total_and_division_guarded :
    (∀ polygon1 polygon2 : List Point,
        check_polygon_collision polygon1 polygon2 = true ∨
        check_polygon_collision polygon1 polygon2 = false) ∧
    (∀ y yi yj : ℚ, straddle y yi yj = true → yj - yi ≠ 0) := by
  constructor
  · intro polygon1 polygon2
    exact Bool.eq_false_or_eq_true _
  · intro y yi yj h hzero
    have hyy : yi = yj := by
      have := sub_eq_zero.mp hzero
      linarith
    simp only [straddle, hyy, bne_self_eq_false] at h
    exact Bool.false_ne_true h

/-- Witness for C5 at concrete inputs: the empty pair evaluates to one of
the booleans, and the guard instance `straddle 1 1 3 = true` forces the
denominator `3 - 1` to be nonzero. -/
theorem collision_total_and_division_guarded_witness :
    (check_polygon_collision [] [] = true ∨ check_polygon_collision [] [] = false) ∧
    ((3:ℚ) - 1 ≠ 0) :=
  ⟨collision_total_and_division_guarded.1 [] [],
   collision_total_and_division_guarded.2 1 1 3 (by decide)⟩

/-- The `DataStorage` class state: its `_data` dict, embedded as an
insertion-ordered association list with at most one entry per key (Python
dicts preserve insertion order and key uniqueness; every reachable state
satisfies this, and none of the theorems below needs the uniqueness
assumption). -/
structure DataStorage where
  data : List (String × String)

/-- Python `DataStorage.add`: `self._data[key] = value`. On a dict this
updates the entry in place when the key is present and appends a new last
entry otherwise. -/
def DataStorage.add (s : DataStorage) (key value : String) : DataStorage :=
  if s.data.any fun p => p.1 == key then
    ⟨s.data.map fun p => if p.1 == key then (key, value) else p⟩
  else ⟨s.data ++ [(key, value)]⟩

/-- Python `DataStorage.get`: `self._data.get(key, "Key not found")`. -/
def DataStorage.get (s : DataStorage) (key : String) : String :=
  match s.data.find? fun p => p.1 == key with
  | some p => p.2
  | none => "Key not found"

/-- Python `DataStorage.delete`: `if key in self._data: del self._data[key]`
— removes the entry when present, does nothing otherwise. -/
def DataStorage.delete (s : DataStorage) (key : String) : DataStorage :=
  ⟨s.data.filter fun p => p.1 != key⟩

/-- Python `DataStorage.list`: `self._data.copy()` — a snapshot of the
whole dict. -/
def DataStorage.list (s : DataStorage) : List (String × String) :=
  s.data

/-- After deleting `key`, looking `key` up in the underlying list finds
nothing. -/
lemma find?_delete_self (l : List (String × String)) (key : String) :
    ((l.filter fun p => p.1 != key).find? fun p => p.1 == key) = none := by
  rw [List.find?_eq_none]
  intro x hx
  have := (List.mem_filter.mp hx).2
  simp only [bne_iff_ne, ne_eq] at this
  simp [this]

/-- Deleting `key` does not disturb lookups of a different key `j`. -/
lemma find?_delete_other (l : List (String × String)) (key j : String)
    (hjk : j ≠ key) :
    ((l.filter fun p => p.1 != key).find? fun p => p.1 == j)
      = l.find? fun p => p.1 == j := by
  induction l with
  | nil => rfl
  | cons a t ih =>
    rw [List.filter_cons]
    by_cases hak : a.1 = key
    · have hfa : (a.1 != key) = false := by simp [hak]
      have haj : (a.1 == j) = false := by
        simp only [beq_eq_false_iff_ne, ne_eq, hak]
        exact fun he => hjk he.symm
      simp [hfa, List.find?_cons, haj, ih]
    · have hfa : (a.1 != key) = true := by simp [hak]
      by_cases haj : a.1 = j
      · have h1 : (a.1 == j) = true := by simp [haj]
        simp [hfa, List.find?_cons, h1]
      · have h1 : (a.1 == j) = false := by simp [haj]
        simp [hfa, List.find?_cons, h1, ih]

/-- Updating in place the entries whose key is `key` makes the first
`key` hit return the new value, provided some entry has key `key`. -/
lemma find?_update_inplace (t : List (String × String)) (key value : String)
    (hany : (t.any fun p => p.1 == key) = true) :
    ((t.map fun p => if p.1 == key then (key, value) else p).find?
        fun p => p.1 == key) = some (key, value) := by
  induction t with
  | nil => simp at hany
  | cons a t ih =>
    by_cases hak : a.1 = key
    · have hhead : (a.1 == key) = true := by simp [hak]
      rw [List.map_cons, if_pos hhead, List.find?_cons_of_pos]
      simp
    · have hhead : (a.1 == key) = false := by simp [hak]
      have htail : (t.any fun p => p.1 == key) = true := by
        simpa [List.any_cons, hhead] using hany
      rw [List.map_cons, if_neg (by simp [hak]), List.find?_cons_of_neg, ih htail]
      simp [hak]

/-- Appending a fresh `(key, value)` entry at the end makes a `key` lookup
return it, provided no entry of the old list has key `key`. -/
lemma find?_append_fresh (t : List (String × String)) (key value : String)
    (hnone : (t.any fun p => p.1 == key) = false) :
    ((t ++ [(key, value)]).find? fun p => p.1 == key) = some (key, value) := by
  induction t with
  | nil => simp
  | cons a t ih =>
    have hhead : (a.1 == key) = false := by
      by_contra h
      simp only [Bool.not_eq_false] at h
      simp [List.any_cons, h] at hnone
    have htail : (t.any fun p => p.1 == key) = false := by
      simpa [List.any_cons, hhead] using hnone
    rw [List.cons_append, List.find?_cons_of_neg, ih htail]
    simp [hhead]

/-- After `add key value`, looking `key` up in the underlying list yields
exactly the entry `(key, value)`. -/
lemma find?_add_self (l : List (String × String)) (key value : String) :
    ((DataStorage.add ⟨l⟩ key value).data.find? fun p => p.1 == key)
      = some (key, value) := by
  rw [DataStorage.add]
  cases hany : (l.any fun p => p.1 == key)
  · rw [if_neg (by simp [hany])]
    exact find?_append_fresh l key value hany
  · rw [if_pos (by simp [hany])]
    exact find?_update_inplace l key value hany

/-- C6: after `add k v` followed by `delete k`, `get k` returns the
not-found sentinel string "Key not found", and the snapshot returned by
`list` holds no entry with key `k` — for every starting state. -/
theorem add_delete_get_not_found (s : DataStorage) (k v : String) :
    DataStorage.get (DataStorage.delete (DataStorage.add s k v) k) k
      = "Key not found" ∧
    (DataStorage.list (DataStorage.delete (DataStorage.add s k v) k)).all
      (fun p => p.1 != k) = true := by
  constructor
  · rw [DataStorage.get, DataStorage.delete, find?_delete_self]
  · rw [DataStorage.list, DataStorage.delete]
    rw [List.all_eq_true]
    intro x hx
    exact (List.mem_filter.mp hx).2

/-- C9: `delete k` leaves the entry of every other key `j` untouched, and
deleting an absent key leaves the whole storage mapping unchanged (and, in
this embedding of the Python, no error is possible: `delete` is a total
function on states). -/
theorem delete_frame_and_absent_noop :
    (∀ (s : DataStorage) (k j : String), j ≠ k →
        DataStorage.get (DataStorage.delete s k) j = DataStorage.get s j) ∧
    (∀ (s : DataStorage) (k : String),
        (DataStorage.list s).all (fun p => p.1 != k) = true →
        DataStorage.delete s k = s) := by
  constructor
  · intro s k j hjk
    rw [DataStorage.get, DataStorage.get, DataStorage.delete]
    rw [find?_delete_other _ _ _ hjk]
  · intro s k h
    rw [DataStorage.list] at h
    rw [DataStorage.delete]
    have : (s.data.filter fun p => p.1 != k) = s.data :=
      List.filter_eq_self.mpr (List.all_eq_true.mp h)
    rw [this]

/-- Witness for C9 at a concrete store: deleting "a" from
`[("a","1"),("b","2")]` leaves the lookup of "b" unchanged, and deleting
the absent key "c" leaves the store unchanged. -/
theorem delete_frame_and_absent_noop_witness :
    DataStorage.get (DataStorage.delete ⟨[("a","1"),("b","2")]⟩ "a") "b"
      = DataStorage.get ⟨[("a","1"),("b","2")]⟩ "b" ∧
    DataStorage.delete ⟨[("a","1"),("b","2")]⟩ "c" = ⟨[("a","1"),("b","2")]⟩ :=
  ⟨delete_frame_and_absent_noop.1 ⟨[("a","1"),("b","2")]⟩ "a" "b" (by decide),
   delete_frame_and_absent_noop.2 ⟨[("a","1"),("b","2")]⟩ "c" (by decide)⟩

/-- C10: the not-found sentinel is not distinguishable from data: from any
state, after `add k "Key not found"` the key `k` is present in the store,
yet `get k` returns the string "Key not found" — exactly what an absent
key returns. -/
theorem stored_sentinel_indistinguishable (s : DataStorage) (k : String) :
    DataStorage.get (DataStorage.add s k "Key not found") k = "Key not found" ∧
    (DataStorage.list (DataStorage.add s k "Key not found")).any
      (fun p => p.1 == k) = true := by
  obtain ⟨l⟩ := s
  constructor
  · rw [DataStorage.get, find?_add_self]
  · rw [DataStorage.list, List.any_eq_true]
    exact ⟨(k, "Key not found"),
      List.mem_of_find?_eq_some (find?_add_self l k "Key not found"),
      by simp⟩

/-- A word character of the regex `\w` on the claim's ASCII inputs:
alphanumeric or underscore. -/
def isWordChar (c : Char) : Bool :=
  c.isAlphanum || c == '_'

/-- Accumulator pass of the tokenizer: `acc` holds the current word run in
reverse. Emitting maximal `\w+` runs is exactly what
`re.findall(r'\b\w+\b', text)` returns (the `\b` boundaries are implied at
the ends of a maximal run). -/
def wordRuns : List Char → List Char → List String
  | [], acc => if acc.isEmpty then [] else [String.mk acc.reverse]
  | c :: cs, acc =>
    if isWordChar c then wordRuns cs (c :: acc)
    else if acc.isEmpty then wordRuns cs []
    else String.mk acc.reverse :: wordRuns cs []

/-- Python `re.findall(r'\b\w+\b', text)`: the maximal word-character runs
of the text, in order. -/
def findallWords (text : List Char) : List String :=
  wordRuns text []

/-- Python `collections.Counter(words)`: counts keyed in first-occurrence
order (Counter is a dict subclass, and dicts preserve insertion order). -/
def countWords (words : List String) : List (String × Nat) :=
  words.foldl
    (fun acc w =>
      if acc.any fun p => p.1 == w then
        acc.map fun p => if p.1 == w then (p.1, p.2 + 1) else p
      else acc ++ [(w, 1)])
    []

/-- Insertion step of a stable descending-by-count sort: the new pair goes
before the first entry whose count does not exceed it. -/
def insertByCountDesc (p : String × Nat) : List (String × Nat) → List (String × Nat)
  | [] => [p]
  | q :: qs => if p.2 ≥ q.2 then p :: q :: qs else q :: insertByCountDesc p qs

/-- Stable sort by count, descending. Python `Counter.most_common(k)` uses
`heapq.nlargest(k, self.items(), key=itemgetter(1))`, which is a stable
descending selection: ties keep their dict (first-occurrence) order. -/
def sortByCountDesc : List (String × Nat) → List (String × Nat)
  | [] => []
  | p :: ps => insertByCountDesc p (sortByCountDesc ps)

/-- Python `Counter(words).most_common(k)`. -/
def most_common (k : Nat) (counts : List (String × Nat)) : List (String × Nat) :=
  (sortByCountDesc counts).take k

/-- Python `find_top_k_frequent_words`:
`re.findall(r'\b\w+\b', text.lower())` then `Counter(words).most_common(k)`.
`Char.toLower` agrees with `str.lower` on the ASCII inputs at issue. -/
def find_top_k_frequent_words (text : String) (k : Nat) : List (String × Nat) :=
  most_common k (countWords (findallWords (text.toList.map Char.toLower)))

/-- C7: on the spec's text with k = 2 the counter returns exactly two
pairs, whose words are "test" and "hello" in some order, both with
count 3 (the code yields "hello" first, its first occurrence preceding
that of "test"). -/
theorem top_two_words_of_spec_text :
    find_top_k_frequent_words
        "Hello world! Hello everyone. This is a simple test. Test, test, hello." 2
      = [("hello", 3), ("test", 3)] ∨
    find_top_k_frequent_words
        "Hello world! Hello everyone. This is a simple test. Test, test, hello." 2
      = [("test", 3), ("hello", 3)] := by
  left
  decide

/-- A file-system entry: a file with its contents, or a directory with an
ordered list of named children (names unique, as on a real file system). -/
inductive FSTree where
  | file (content : String)
  | dir (entries : List (String × FSTree))

/-- The errors `FileProcessor.copy_directory` can raise: Python's
`FileNotFoundError` (raised explicitly when the source path is absent),
`FileExistsError` (from `mkdir` when the target path exists as a file), and
`NotADirectoryError` (from `iterdir` when the source path is a file). -/
inductive CopyError where
  | fileNotFound
  | fileExists
  | notADirectory

/-- Write the child `name` of a directory, overwriting an existing child of
that name and appending a new one otherwise. -/
def setEntry (name : String) (e : FSTree) (ts : List (String × FSTree)) :
    List (String × FSTree) :=
  if ts.any fun p => p.1 == name then
    ts.map fun p => if p.1 == name then (name, e) else p
  else ts ++ [(name, e)]

/-- Resolve the child `name` of a directory, `none` when absent. -/
def lookupEntry (name : String) (ts : List (String × FSTree)) : Option FSTree :=
  Option.map Prod.snd (ts.find? fun p => p.1 == name)

mutual

/-- Python `FileProcessor.copy_directory(source_dir, target_dir)` over the
file-system model: the first argument is what the source path resolves to
(`none` when absent), the second what the target path resolves to. Returns
the new state of the target path and the error that aborted the copy, if
any (Python raises out of the loop, so effects made before the raise are
kept in the returned state). Steps mirror the source: missing source →
`FileNotFoundError` before anything is copied or created; then
`target_path.mkdir(parents=True, exist_ok=True)` (fails if the target
exists as a file); then `for item in source_path.iterdir()` (fails if the
source is a file). -/
def copy_directory : Option FSTree → Option FSTree → Option FSTree × Option CopyError
  | none, tgt => (tgt, some .fileNotFound)
  | some s, tgt =>
    match tgt with
    | some (.file c) => (some (.file c), some .fileExists)
    | _ =>
      let ts := match tgt with
        | some (.dir ts0) => ts0
        | _ => []
      match s with
      | .file _ => (some (.dir ts), some .notADirectory)
      | .dir es =>
        let res := copy_items es ts
        (some (.dir res.1), res.2)
termination_by src _ => sizeOf src

/-- The `for item in source_path.iterdir()` body of `copy_directory`: a
subdirectory recurses via `copy_directory`; a file goes through
`shutil.copy2`, which overwrites an existing file of that name and copies
into an existing directory of that name using the same base name. -/
def copy_items : List (String × FSTree) → List (String × FSTree) →
    List (String × FSTree) × Option CopyError
  | [], ts => (ts, none)
  | (name, .dir des) :: rest, ts =>
    match copy_directory (some (.dir des)) (lookupEntry name ts) with
    | (sub, none) =>
      copy_items rest (setEntry name (match sub with
        | some t => t
        | none => .dir []) ts)
    | (sub, some e) =>
      (setEntry name (match sub with
        | some t => t
        | none => .dir []) ts, some e)
  | (name, .file c) :: rest, ts =>
    match lookupEntry name ts with
    | some (.dir dts) =>
      copy_items rest (setEntry name (.dir (setEntry name (.file c) dts)) ts)
    | _ => copy_items rest (setEntry name (.file c) ts)
termination_by es _ => sizeOf es

end

/-- `FileNotFoundError` can only arise from the explicit missing-source
check: once the top-level source exists, neither the copy nor any
recursive sub-copy ever reports it, since every recursive call is on an
entry read out of an existing source directory. Proved for both mutual
functions at once, by strong induction on the size of the source. -/
lemma copy_no_fileNotFound_aux (n : Nat) :
    (∀ (s : FSTree) (tgt : Option FSTree), sizeOf s ≤ n →
      (copy_directory (some s) tgt).2 ≠ some CopyError.fileNotFound) ∧
    (∀ (es ts : List (String × FSTree)), sizeOf es ≤ n →
      (copy_items es ts).2 ≠ some CopyError.fileNotFound) := by
  induction n using Nat.strong_induction_on with
  | _ n ih =>
    constructor
    · intro s tgt hs
      have hdir : ∀ (es : List (String × FSTree)) (ts0 : List (String × FSTree)),
          s = FSTree.dir es →
          (copy_items es ts0).2 ≠ some CopyError.fileNotFound := by
        intro es ts0 heq
        have hlt : sizeOf es < n := by
          subst heq
          have : sizeOf (FSTree.dir es) = 1 + sizeOf es := by simp
          omega
        exact (ih (sizeOf es) hlt).2 es ts0 (le_refl _)
      cases tgt with
      | none =>
        cases s with
        | file c => simp [copy_directory]
        | dir es =>
          simp only [copy_directory]
          exact hdir es [] rfl
      | some t =>
        cases t with
        | file c => simp [copy_directory]
        | dir ts0 =>
          cases s with
          | file c => simp [copy_directory]
          | dir es =>
            simp only [copy_directory]
            exact hdir es ts0 rfl
    · intro es ts hes
      cases es with
      | nil => simp [copy_items]
      | cons a rest =>
        obtain ⟨name, item⟩ := a
        have hrest : sizeOf rest < n := by
          have : sizeOf ((name, item) :: rest)
              = 1 + (1 + sizeOf name + sizeOf item) + sizeOf rest := by
            simp
          omega
        cases item with
        | file c =>
          simp only [copy_items]
          cases hlk : lookupEntry name ts with
          | none => exact (ih _ hrest).2 rest _ (le_refl _)
          | some t =>
            cases t with
            | file c2 => exact (ih _ hrest).2 rest _ (le_refl _)
            | dir dts => exact (ih _ hrest).2 rest _ (le_refl _)
        | dir des =>
          have hsub : sizeOf (FSTree.dir des) < n := by
            have : sizeOf ((name, FSTree.dir des) :: rest)
                = 1 + (1 + sizeOf name + sizeOf (FSTree.dir des)) + sizeOf rest := by
              simp
            omega
          simp only [copy_items]
          cases hcd : copy_directory (some (FSTree.dir des)) (lookupEntry name ts) with
          | mk sub err =>
            cases err with
            | none =>
              exact (ih _ hrest).2 rest _ (le_refl _)
            | some e =>
              have hne := (ih _ hsub).1 (FSTree.dir des) (lookupEntry name ts) (le_refl _)
              rw [hcd] at hne
              simp only [ne_eq, Option.some.injEq] at hne ⊢
              intro hcontra
              exact hne (by rw [hcontra])

/-- C8: `copy_directory` reports `FileNotFoundError` exactly when the
source path is absent, and then touches nothing — the target comes back
unchanged; and copying never reports `FileNotFoundError` when the source
exists. When the source exists, the target directory is created if
missing, subdirectories are copied recursively, and existing files at the
destination are overwritten while other entries are kept — witnessed by a
nested source copied onto a missing target, and by a source file "a"
overwriting the target's "a" while its "b" survives. -/
theorem copy_directory_contract :
    (∀ tgt : Option FSTree,
        copy_directory none tgt = (tgt, some CopyError.fileNotFound)) ∧
    (∀ (s : FSTree) (tgt : Option FSTree),
        (copy_directory (some s) tgt).2 ≠ some CopyError.fileNotFound) ∧
    copy_directory (some (FSTree.dir [("sub", FSTree.dir [("f", FSTree.file "x")])])) none
      = (some (FSTree.dir [("sub", FSTree.dir [("f", FSTree.file "x")])]), none) ∧
    copy_directory (some (FSTree.dir [("a", FSTree.file "new")]))
        (some (FSTree.dir [("a", FSTree.file "old"), ("b", FSTree.file "keep")]))
      = (some (FSTree.dir [("a", FSTree.file "new"), ("b", FSTree.file "keep")]), none) := by
  refine ⟨?_, ?_, ?_, ?_⟩
  · intro tgt
    rw [copy_directory]
  · intro s tgt
    exact (copy_no_fileNotFound_aux (sizeOf s)).1 s tgt (le_refl _)
  · simp [copy_directory, copy_items, lookupEntry, setEntry]
  · simp [copy_directory, copy_items, lookupEntry, setEntry]

/-- Witness for C8 at a concrete input: copying an existing source (here a
single file used as source path) never reports `FileNotFoundError`. -/
theorem copy_directory_contract_witness :
    (copy_directory (some (FSTree.file "c")) none).2 ≠ some CopyError.fileNotFound :=
  copy_directory_contract.2.1 (FSTree.file "c") none

end Main
